import Mathlib

/-
Verification of the interactive parameter-collection and launch-command
synthesis engine of nf_core/launch.py.

The Python source is shallowly embedded: each method of the Launch class is
translated to a pure Lean function; interactive console input is modelled as
an explicit list of input lines (or, for the run-flag prompts, as the typed
values returned by the prompt collaborator), and file writes are modelled as
returned path/content pairs.  Machine integers do not overflow in the
modelled code paths (Python integers are unbounded), so Int/Nat are used
directly.  Floating point numbers are represented by the literal text they
were parsed from; no verified property depends on floating point arithmetic.
-/

set_option autoImplicit false

/-- Runtime values manipulated by the launcher, mirroring the Python value
kinds that occur in launch.py: int, float, bool, str and None.  A float is
carried as the literal text it was parsed from. -/
inductive PValue where
  | int (n : Int)
  | float (lit : String)
  | bool (b : Bool)
  | str (s : String)
  | none
  deriving DecidableEq, Repr

/-- Optional constraint attached to a parameter: an enumerated set of string
choices or an inclusive numeric range (spec section 3). -/
inductive Choices where
  | enum (values : List String)
  | range (lo hi : Int)
  deriving DecidableEq, Repr

/-- Parameter record, with the fields read or written by launch.py (the
class itself lives in nf_core.workflow.parameters; its field set is taken
from the builder calls in collect_pipeline_param_defaults and the accesses
in prompt_param_flags).  The current value starts out equal to the default. -/
structure Parameter where
  name : String
  label : Option String
  usage : Option String
  type : String
  choices : Option Choices
  default_value : PValue
  value : PValue
  pattern : String
  render : String
  arity : Option Nat
  group : String
  deriving DecidableEq, Repr

/- ----------------------------------------------------------------- -/
/- Character and string utilities mirroring the Python primitives.    -/
/- ----------------------------------------------------------------- -/

/-- Split a character list at every occurrence of the separator, mirroring
the Python str.split method with an explicit one-character separator. -/
def splitC (sep : Char) : List Char → List (List Char)
  | [] => [[]]
  | c :: cs =>
    let r := splitC sep cs
    if c = sep then [] :: r
    else
      match r with
      | [] => [[c]]
      | h :: t => (c :: h) :: t

/-- Interleave a separator between chunks; inverse of splitC. -/
def joinSep (sep : Char) : List (List Char) → List Char
  | [] => []
  | [x] => x
  | x :: xs => x ++ sep :: joinSep sep xs

/-- Does the haystack start with the needle (on character lists)? -/
def startsWithL : List Char → List Char → Bool
  | _, [] => true
  | [], _ :: _ => false
  | h :: hs, n :: ns => h = n && startsWithL hs ns

/-- Substring containment test on character lists, mirroring the Python
membership operator on strings. -/
def containsSub : List Char → List Char → Bool
  | [], n => n.isEmpty
  | h :: t, n => startsWithL (h :: t) n || containsSub t n

/-- Python substring test: needle in hay. -/
def pyIn (needle hay : String) : Bool :=
  containsSub hay.data needle.data

/-- ASCII lower-casing of a string, mirroring the Python lower method on
the ASCII text handled here. -/
def pyLower (s : String) : String :=
  String.mk (s.data.map Char.toLower)

/-- Strip every leading and trailing occurrence of one character, mirroring
the Python str.strip method called with that single character. -/
def stripChar (c : Char) (s : String) : String :=
  String.mk ((((s.data.dropWhile (· = c)).reverse.dropWhile (· = c)).reverse))

/-- Python str.isdigit restricted to ASCII text: nonempty and composed
entirely of decimal digits (the configuration values fed to it in
collect_pipeline_param_defaults are ASCII). -/
def pyIsDigit (s : String) : Bool :=
  !s.data.isEmpty && s.data.all Char.isDigit

/-- Numeric value of an all-digit string, the result of the Python int
constructor on such a string. -/
def parseNatDigits (cs : List Char) : Nat :=
  cs.foldl (fun acc c => acc * 10 + (c.toNat - 48)) 0

/-- Python whitespace characters stripped by float and int conversion. -/
def pyWs (c : Char) : Bool :=
  c = ' ' || c = '\t' || c = '\n' || c = '\r' || c = Char.ofNat 11 || c = Char.ofNat 12

/-- Strip leading and trailing Python whitespace. -/
def trimWs (cs : List Char) : List Char :=
  ((cs.dropWhile pyWs).reverse.dropWhile pyWs).reverse

/-- Drop one optional leading sign character. -/
def dropSign : List Char → List Char
  | [] => []
  | c :: cs => if c = '+' || c = '-' then cs else c :: cs

/-- Consume a maximal digit run in which single underscores may appear
between digits (Python numeric literal grouping); returns the consumed
digits (without underscores) and the unconsumed remainder. -/
def dgRest : List Char → List Char × List Char
  | [] => ([], [])
  | [c] => if c.isDigit then ([c], []) else ([], [c])
  | c :: c2 :: cs =>
    if c.isDigit then
      let dr := dgRest (c2 :: cs)
      (c :: dr.1, dr.2)
    else if c = '_' then
      (if c2.isDigit then
        let dr := dgRest cs
        (c2 :: dr.1, dr.2)
      else ([], c :: c2 :: cs))
    else ([], c :: c2 :: cs)

/-- Consume a nonempty digit group (with optional grouping underscores);
fails when the input does not start with a digit. -/
def digitGroup (cs : List Char) : Option (List Char × List Char) :=
  let (d, r) := dgRest cs
  if d.isEmpty then Option.none else some (d, r)

/-- Recognize an optional exponent part followed by end of input, as in the
tail of the Python float grammar. -/
def expPart : List Char → Bool
  | [] => true
  | e :: r =>
    if e = 'e' || e = 'E' then
      match digitGroup (dropSign r) with
      | some (_, []) => true
      | _ => false
    else false

/-- Recognize the body of a Python float literal after the optional sign:
inf, infinity or nan (case-insensitive), or a mantissa with optional
fraction and exponent. -/
def floatBody (cs : List Char) : Bool :=
  let l := cs.map Char.toLower
  if l = "inf".data || l = "infinity".data || l = "nan".data then true
  else
    match digitGroup cs with
    | some (_, r) =>
      let r2 := match r with
        | '.' :: r2a =>
          (match digitGroup r2a with
           | some (_, r2b) => r2b
           | Option.none => r2a)
        | _ => r
      expPart r2
    | Option.none =>
      match cs with
      | '.' :: r1 =>
        (match digitGroup r1 with
         | some (_, r2) => expPart r2
         | Option.none => false)
      | _ => false

/-- Does the Python float constructor accept this string? -/
def pyFloatOk (s : String) : Bool :=
  floatBody (dropSign (trimWs s.data))

/-- Python int conversion of a free-text line (as performed by the prompt
collaborator for integer-typed prompts): optional surrounding whitespace,
optional sign, then a nonempty digit group consuming all remaining input. -/
def pyIntParse (s : String) : Option Int :=
  let t := trimWs s.data
  let neg := match t with
    | c :: _ => c == '-'
    | [] => false
  match digitGroup (dropSign t) with
  | some (d, []) => some (if neg then -(parseNatDigits d : Int) else (parseNatDigits d : Int))
  | _ => Option.none

/-- Replace every double-quote character by a backslash-quote pair,
mirroring the replace call in build_command. -/
def escapeQuotes (s : String) : String :=
  String.mk (s.data.flatMap (fun c => if c = '"' then ['\\', '"'] else [c]))

/-- Whitespace-separated tokens of a command string (split at single
spaces, the only separator the command builder emits). -/
def pyTokens (s : String) : List String :=
  (splitC ' ' s.data).map String.mk

/-- Number of occurrences of a given token in a token list. -/
def countTok (x : String) (l : List String) : Nat :=
  l.count x

/- ----------------------------------------------------------------- -/
/- Parameter Catalog: fallback type inference and synthesis.          -/
/- ----------------------------------------------------------------- -/

/-- Type inference of collect_pipeline_param_defaults (launch.py lines
132-149), translated statement by statement: tentatively string, digits
give integer, otherwise a successful float conversion gives decimal, and a
final unconditional check turns the exact literals true/false into a
boolean. -/
def inferParam (value : String) : String × PValue :=
  let tentative : String × PValue :=
    if pyIsDigit value then ("integer", PValue.int (parseNatDigits value.data : Nat))
    else if pyFloatOk value then ("decimal", PValue.float value)
    else ("string", PValue.str value)
  if value = "true" || value = "false" then ("boolean", PValue.bool (value = "true"))
  else tentative

/-- Restatement of the inference precedence in the words of the spec
(section 4.1 step 3): digits-only yields integer, else float-parseable
yields decimal, else string, and regardless of that outcome the exact
literals true/false yield boolean.  Used only to compare against
inferParam, which is translated from the source. -/
def specInferParam (value : String) : String × PValue :=
  if value = "true" || value = "false" then ("boolean", PValue.bool (value = "true"))
  else if pyIsDigit value then ("integer", PValue.int (parseNatDigits value.data : Nat))
  else if pyFloatOk value then ("decimal", PValue.float value)
  else ("string", PValue.str value)

/-- Key filter of collect_pipeline_param_defaults (launch.py lines
129-130): split the configuration key on dots and keep it only when the
result is exactly the reserved namespace followed by one name. -/
def paramKeyName (key : String) : Option String :=
  match splitC '.' key.data with
  | [a, b] => if a = "params".data then some (String.mk b) else Option.none
  | _ => Option.none

/-- Parameter built by the builder chain in collect_pipeline_param_defaults
(launch.py lines 152-163); the current value starts at the default. -/
def mkSynthParam (name : String) (rawValue : String) : Parameter :=
  let td := inferParam rawValue
  { name := name
    label := Option.none
    usage := Option.none
    type := td.1
    choices := Option.none
    default_value := td.2
    value := td.2
    pattern := ".*"
    render := "textfield"
    arity := Option.none
    group := "Pipeline parameters" }

/-- Launch.collect_pipeline_param_defaults: iterate the fallback flat
configuration map and synthesize one parameter for each key of the shape
params.name. -/
def collect_pipeline_param_defaults (config : List (String × String)) : List Parameter :=
  config.filterMap (fun kv =>
    match paramKeyName kv.1 with
    | some name => some (mkSynthParam name kv.2)
    | Option.none => Option.none)

/- ----------------------------------------------------------------- -/
/- Grouping.                                                          -/
/- ----------------------------------------------------------------- -/

/-- Effect of one loop iteration of Launch.group_parameters on the ordered
grouped_parameters dictionary (modelled as an association list preserving
dictionary insertion order): create the key with an empty list when absent
(insertion at the end, as in a Python dict), then append the parameter to
the list stored under the key. -/
def dictAppend (g : List (String × List Parameter)) (k : String) (p : Parameter) :
    List (String × List Parameter) :=
  match g with
  | [] => [(k, [p])]
  | (k2, l) :: t => if k2 = k then (k2, l ++ [p]) :: t else (k2, l) :: dictAppend t k p

/-- Launch.group_parameters (launch.py lines 204-216): fold every catalog
parameter into the grouped_parameters dictionary carried in the object
state. -/
def group_parameters (g : List (String × List Parameter)) (ps : List Parameter) :
    List (String × List Parameter) :=
  ps.foldl (fun acc p => dictAppend acc p.group p) g

/-- Keys of the grouped dictionary in insertion order. -/
def groupKeys (g : List (String × List Parameter)) : List String :=
  g.map Prod.fst

/-- First-seen-order deduplication of a list of labels. -/
def dedupFirstSeen (l : List String) : List String :=
  l.foldl (fun acc x => if x ∈ acc then acc else acc ++ [x]) []

/- ----------------------------------------------------------------- -/
/- Validator and interactive parameter session.                       -/
/- ----------------------------------------------------------------- -/

/-- Base element of a validation pattern: a literal character or the
any-character dot. -/
inductive RBase where
  | dot
  | lit (c : Char)
  deriving DecidableEq, Repr

/-- Pattern token: a base element, possibly starred. -/
structure RTok where
  base : RBase
  star : Bool
  deriving DecidableEq, Repr

/-- Parse a validation pattern into tokens (literals and dots, each with an
optional star). -/
def parsePat : List Char → List RTok
  | [] => []
  | c :: '*' :: rest =>
    { base := if c = '.' then RBase.dot else RBase.lit c, star := true } :: parsePat rest
  | c :: rest =>
    { base := if c = '.' then RBase.dot else RBase.lit c, star := false } :: parsePat rest

/-- Does one base element match one character? -/
def baseMatch : RBase → Char → Bool
  | RBase.dot, _ => true
  | RBase.lit c, d => c = d

/-- Full-string matching of a token list against a character list. -/
def matchToks : List RTok → List Char → Bool
  | [], [] => true
  | [], _ :: _ => false
  | ⟨_, false⟩ :: _, [] => false
  | ⟨b, false⟩ :: ts, c :: cs => baseMatch b c && matchToks ts cs
  | ⟨b, true⟩ :: ts, cs =>
    matchToks ts cs ||
      (match cs with
       | [] => false
       | c :: cs2 => baseMatch b c && matchToks (⟨b, true⟩ :: ts) cs2)
  termination_by ts cs => (ts.length, cs.length)

/-- Full match of a pattern against a string. -/
def regexMatch (pat s : String) : Bool :=
  matchToks (parsePat pat.data) s.data

/-- Text rendering of a value, as the Python str constructor produces it
where the embedding needs it. -/
def pyStrOf : PValue → String
  | PValue.str s => s
  | PValue.bool b => if b then "True" else "False"
  | PValue.int n => toString n
  | PValue.float lit => lit
  | PValue.none => "None"

/-- Modelled from the spec: the validate method of the Parameter class
(nf_core.workflow.validation, not under src/).  Spec section 4.3: pattern
match against the declared regular expression when the type is string, then
a choice-membership check when choices is an enumerated set, and a numeric
range check when choices encodes a range. -/
def validateParam (p : Parameter) (v : PValue) : Bool :=
  (if p.type = "string" then regexMatch p.pattern (pyStrOf v) else true) &&
    (match p.choices with
     | Option.none => true
     | some (Choices.enum vs) => vs.contains (pyStrOf v)
     | some (Choices.range lo hi) =>
       match v with
       | PValue.int n => decide (lo ≤ n) && decide (n ≤ hi)
       | _ => false)

/-- Modelled from the spec: typed conversion of one input line by the
prompt collaborator (the click library, an external dependency).  Spec
section 4.3: for boolean parameters a yes/no affordance whose empty answer
returns the default; for the other types free text converted at the
declared type, where a line that does not convert is rejected and the
prompt is re-issued (scenario A); an empty line returns the default. -/
def clickConvert (p : Parameter) (line : String) : Option PValue :=
  if p.type = "boolean" then
    if line = "" then some p.default_value
    else
      match pyLower line with
      | "y" | "yes" => some (PValue.bool true)
      | "n" | "no" => some (PValue.bool false)
      | _ => Option.none
  else if line = "" then some p.default_value
  else if p.type = "integer" then (pyIntParse line).map PValue.int
  else if p.type = "decimal" then
    if pyFloatOk line then some (PValue.float line) else Option.none
  else some (PValue.str line)

/-- Python int conversion applied by the coercion step; the non-integer
branches never occur in the modelled session (the collaborator already
returned an integer there) and are completed in the natural way. -/
def pyIntOf : PValue → Int
  | PValue.int n => n
  | PValue.bool b => if b then 1 else 0
  | PValue.str s => (pyIntParse s).getD 0
  | PValue.float _ => 0
  | PValue.none => 0

/-- Text carried by a value once the coercion step casts it with the Python
float constructor; only the literal is tracked. -/
def pyFloatTextOf : PValue → String
  | PValue.float lit => lit
  | PValue.int n => toString n
  | PValue.str s => s
  | PValue.bool b => if b then "1" else "0"
  | PValue.none => ""

/-- Coercion step of prompt_param_flags (launch.py lines 272-278): integer
type casts with int, decimal type casts with float, and every other type -
including boolean - casts with str. -/
def coerceValue (t : String) (v : PValue) : PValue :=
  if t = "integer" then PValue.int (pyIntOf v)
  else if t = "decimal" then PValue.float (pyFloatTextOf v)
  else PValue.str (pyStrOf v)

/-- Values assigned to parameter.value by the successive iterations of the
retry loop in prompt_param_flags: each accepted line is coerced and
assigned, and the loop ends at the first assignment that validates. -/
def assignedValues (p : Parameter) : List String → List PValue
  | [] => []
  | line :: rest =>
    match clickConvert p line with
    | Option.none => assignedValues p rest
    | some v0 =>
      let v := coerceValue p.type v0
      if validateParam p v then [v] else v :: assignedValues p rest

/-- Retry loop of prompt_param_flags for one parameter (launch.py lines
230-288): consume input lines until one converts at the declared type and
validates; the loop never exits otherwise, so an exhausted input stream
leaves the session blocked (modelled as Option.none). -/
def promptParamLoop (p : Parameter) : List String → Option (PValue × List String)
  | [] => Option.none
  | line :: rest =>
    match clickConvert p line with
    | Option.none => promptParamLoop p rest
    | some v0 =>
      let v := coerceValue p.type v0
      if validateParam p v then some (v, rest) else promptParamLoop p rest

/-- Store an accepted value on a parameter. -/
def setValue (p : Parameter) (v : PValue) : Parameter :=
  { p with value := v }

/-- Prompt every parameter of one group in order, threading the input
stream. -/
def promptParams : List Parameter → List String → Option (List Parameter × List String)
  | [], inputs => some ([], inputs)
  | p :: ps, inputs =>
    match promptParamLoop p inputs with
    | Option.none => Option.none
    | some (v, rest) =>
      match promptParams ps rest with
      | Option.none => Option.none
      | some (ps2, rest2) => some (setValue p v :: ps2, rest2)

/-- Modelled from the spec: yes/no confirmation read by the prompt
collaborator (click.confirm): an empty line answers with the default, a
yes or no literal answers accordingly, and anything else re-issues the
question. -/
def confirmRead (dflt : Bool) : List String → Option (Bool × List String)
  | [] => Option.none
  | line :: rest =>
    if line = "" then some (dflt, rest)
    else
      match pyLower line with
      | "y" | "yes" => some (true, rest)
      | "n" | "no" => some (false, rest)
      | _ => confirmRead dflt rest

/-- Launch.prompt_param_flags (launch.py lines 218-288): for each group ask
the override question (default no); on no, skip the group unchanged; on
yes, prompt every parameter of the group through the retry loop. -/
def prompt_param_flags :
    List (String × List Parameter) → List String →
      Option (List (String × List Parameter) × List String)
  | [], inputs => some ([], inputs)
  | (label, ps) :: groups, inputs =>
    match confirmRead false inputs with
    | Option.none => Option.none
    | some (false, rest) =>
      (prompt_param_flags groups rest).map (fun gr => ((label, ps) :: gr.1, gr.2))
    | some (true, rest) =>
      match promptParams ps rest with
      | Option.none => Option.none
      | some (ps2, rest2) =>
        (prompt_param_flags groups rest2).map (fun gr => ((label, ps2) :: gr.1, gr.2))

/- ----------------------------------------------------------------- -/
/- Run-flag prompting.                                                -/
/- ----------------------------------------------------------------- -/

/-- Fixed run-flag defaults of Launch.__init__ (launch.py lines 62-68), in
dictionary order; the working-directory default comes from the NXF_WORK
environment variable when set. -/
def nxf_flag_defaults (nxfWork : Option String) : List (String × PValue) :=
  [("-name", PValue.none),
   ("-r", PValue.none),
   ("-profile", PValue.str "standard"),
   ("-w", PValue.str (match nxfWork with | some w => w | Option.none => "./work")),
   ("-resume", PValue.bool false)]

/-- Replacement of a None default by the empty string before prompting
(launch.py lines 173-175). -/
def noneToEmpty (v : PValue) : PValue :=
  match v with
  | PValue.none => PValue.str ""
  | v => v

/-- Normalization applied to a changed run-flag value before it is stored
(launch.py lines 196-201): for text, strip surrounding double quotes, then
surrounding single quotes, then turn the case-insensitive literals
true/false into booleans; the attribute error raised by the strip call on a
non-text value is swallowed, leaving the value unchanged. -/
def normalizeFlagVal (v : PValue) : PValue :=
  match v with
  | PValue.str s =>
    let s2 := stripChar (Char.ofNat 39) (stripChar '"' s)
    if pyLower s2 = "true" then PValue.bool true
    else if pyLower s2 = "false" then PValue.bool false
    else PValue.str s2
  | v => v

/-- Core of Launch.prompt_core_nxf_flags (launch.py lines 166-202): each
run flag is paired with the typed value the prompt collaborator returned
for it; a value equal to the (None-replaced) default is discarded, and a
differing value is normalized and recorded in the nxf_flags dictionary in
iteration order. -/
def promptCoreFold : List ((String × PValue) × PValue) → List (String × PValue)
  | [] => []
  | ((flag, d), v) :: rest =>
    if v = noneToEmpty d then promptCoreFold rest
    else (flag, normalizeFlagVal v) :: promptCoreFold rest

/-- Launch.prompt_core_nxf_flags, with the collaborator answers given
positionally for the flag list. -/
def prompt_core_nxf_flags (defaults : List (String × PValue)) (vals : List PValue) :
    List (String × PValue) :=
  promptCoreFold (defaults.zip vals)

/-- Mutable state of the Launch object that survives into command
synthesis: the recorded run-flag overrides, the catalog (whose entries the
parameter session mutates in place), the grouped view of the catalog, and
the params_user dictionary read by the inline branch of build_command. -/
structure LaunchSession where
  nxf_flags : List (String × PValue)
  parameters : List Parameter
  grouped_parameters : List (String × List Parameter)
  params_user : List (String × PValue)
  deriving DecidableEq, Repr

/-- Find the updated copy of a parameter in the grouped dictionary by name
(the Python code mutates the one shared object; the pure embedding
reconciles the flat catalog with the grouped view through the unique
names). -/
def findByName (g : List (String × List Parameter)) (n : String) : Option Parameter :=
  (g.foldl (fun acc kv => acc ++ kv.2) []).find? (fun p => p.name = n)

/-- Interactive phase of launch_pipeline (launch.py lines 29-35): group the
catalog, record the run-flag overrides, then run the grouped parameter
prompts; params_user is created empty in __init__ and no statement of
launch.py ever writes to it. -/
def runInteractiveSession (nxfWork : Option String) (params : List Parameter)
    (flagVals : List PValue) (inputs : List String) : Option LaunchSession :=
  match prompt_param_flags (group_parameters [] params) inputs with
  | Option.none => Option.none
  | some (grouped2, _) =>
    some { nxf_flags := prompt_core_nxf_flags (nxf_flag_defaults nxfWork) flagVals
           parameters := params.map (fun p => (findByName grouped2 p.name).getD p)
           grouped_parameters := grouped2
           params_user := [] }

/- ----------------------------------------------------------------- -/
/- Command Builder.                                                   -/
/- ----------------------------------------------------------------- -/

/-- One fold step of the run-flag section of build_command (launch.py lines
292-301): a true boolean appends a bare flag token, a false boolean logs a
warning and appends nothing, and any other value appends the flag followed
by the double-quoted, quote-escaped text. -/
def buildFlagStep (acc : String × List String) (fv : String × PValue) : String × List String :=
  match fv.2 with
  | PValue.bool true => (acc.1 ++ " " ++ fv.1, acc.2)
  | PValue.bool false => (acc.1, acc.2 ++ ["TODO: Cant set false boolean flags currently."])
  | v => (acc.1 ++ " " ++ fv.1 ++ " \"" ++ escapeQuotes (pyStrOf v) ++ "\"", acc.2)

/-- Run-flag section of build_command: fold over the recorded overrides,
returning the extended command text and the warnings logged on the way. -/
def build_nxf_flags (cmd : String) (flags : List (String × PValue)) : String × List String :=
  flags.foldl buildFlagStep (cmd, [])

/-- One fold step of the inline parameter section of build_command
(launch.py lines 310-320), identical to the run-flag rules except for the
double-dash prefix and an error-level log for false booleans. -/
def buildInlineStep (acc : String × List String) (fv : String × PValue) : String × List String :=
  match fv.2 with
  | PValue.bool true => (acc.1 ++ " --" ++ fv.1, acc.2)
  | PValue.bool false => (acc.1, acc.2 ++ ["Cant set false boolean flags."])
  | v => (acc.1 ++ " --" ++ fv.1 ++ " \"" ++ escapeQuotes (pyStrOf v) ++ "\"", acc.2)

/-- Inline parameter section of build_command. -/
def build_inline_params (cmd : String) (pu : List (String × PValue)) : String × List String :=
  pu.foldl buildInlineStep (cmd, [])

/-- Modelled from the spec: Parameters.in_nextflow_json
(nf_core.workflow.parameters, not under src/) serializes the full catalog
as the mapping from each parameter name to its current value (spec
sections 4.4 and 6). -/
def in_nextflow_json (ps : List Parameter) : List (String × PValue) :=
  ps.map (fun p => (p.name, p.value))

/-- Entry of the full audit record: name with type, label, usage, choices,
group and current value (spec section 6). -/
structure AuditEntry where
  name : String
  ptype : String
  label : Option String
  usage : Option String
  choices : Option Choices
  group : String
  value : PValue
  deriving DecidableEq, Repr

/-- Modelled from the spec: Parameters.in_full_json (nf_core.workflow.
parameters, not under src/) serializes every catalog parameter with its
full metadata for human audit. -/
def in_full_json (ps : List Parameter) : List AuditEntry :=
  ps.map (fun p =>
    { name := p.name, ptype := p.type, label := p.label, usage := p.usage,
      choices := p.choices, group := p.group, value := p.value })

/-- Content of a file written by the command builder. -/
inductive FileContent where
  | nxfParams (m : List (String × PValue))
  | fullJson (entries : List AuditEntry)
  deriving DecidableEq, Repr

/-- Launch.build_command (launch.py lines 290-335) together with the two
file writers it calls: returns the assembled command text, the
path/content pairs written (nfx-params.json then full-params.json in file
mode, nothing in inline mode) and the warning or error messages logged. -/
def build_command (cmd0 : String) (nxfFlags : List (String × PValue))
    (use_params_file : Bool) (params_user : List (String × PValue))
    (parameters : List Parameter) (cwd : String) :
    String × List (String × FileContent) × List String :=
  let base := build_nxf_flags cmd0 nxfFlags
  if use_params_file then
    let path := cwd ++ "/nfx-params.json"
    (base.1 ++ " " ++ "--params-file" ++ " \"" ++ path ++ "\"",
     ([(path, FileContent.nxfParams (in_nextflow_json parameters)),
       (cwd ++ "/full-params.json", FileContent.fullJson (in_full_json parameters))],
      base.2))
  else
    let r := build_inline_params base.1 params_user
    (r.1, ([], base.2 ++ r.2))

/- ----------------------------------------------------------------- -/
/- Launch Orchestrator and workflow-name normalization.               -/
/- ----------------------------------------------------------------- -/

/-- Launch.launch_workflow (launch.py lines 337-348): display the
assembled command, ask a yes/no confirmation whose default is no, and hand
the command to the external process collaborator only on yes; the files
already on disk are untouched either way.  Returns the displayed lines,
the commands executed and the resulting disk state. -/
def launch_workflow (cmd : String) (inputs : List String)
    (disk : List (String × FileContent)) :
    List String × List String × List (String × FileContent) :=
  let displayed := ["Nextflow command:", "  " ++ cmd]
  match confirmRead false inputs with
  | some (true, _) => (displayed, [cmd], disk)
  | some (false, _) => (displayed, [], disk)
  | Option.none => (displayed, [], disk)

/-- Workflow-name normalization of Launch.__init__ (launch.py lines
47-50): prepend the org prefix when the name does not contain nf-core,
contains no slash and does not name an existing local path. -/
def normalize_workflow_name (workflow : String) (path_exists : Bool) : String :=
  if !pyIn "nf-core" workflow && workflow.data.count '/' == 0 && !path_exists then
    "nf-core/" ++ workflow
  else workflow

/-- Base invocation assembled in Launch.__init__ (launch.py line 80) from
the already-normalized workflow name. -/
def nextflow_cmd_init (workflow : String) (path_exists : Bool) : String :=
  "nextflow run " ++ normalize_workflow_name workflow path_exists

/- ----------------------------------------------------------------- -/
/- Helper lemmas.                                                     -/
/- ----------------------------------------------------------------- -/

/-- Concatenation of a list of strings. -/
def joinStr : List String → String
  | [] => ""
  | s :: t => s ++ joinStr t

theorem splitC_ne_nil (sep : Char) (cs : List Char) : splitC sep cs ≠ [] := by
  induction cs with
  | nil => simp [splitC]
  | cons c t ih =>
    by_cases h : c = sep
    · simp [splitC, h]
    · simp only [splitC, if_neg h]
      cases hr : splitC sep t with
      | nil => exact absurd hr ih
      | cons a b => simp

theorem joinSep_splitC (sep : Char) (cs : List Char) :
    joinSep sep (splitC sep cs) = cs := by
  induction cs with
  | nil => simp [splitC, joinSep]
  | cons c t ih =>
    by_cases h : c = sep
    · subst h
      simp only [splitC, if_pos rfl]
      cases hr : splitC c t with
      | nil => exact absurd hr (splitC_ne_nil c t)
      | cons a b =>
        rw [hr] at ih
        simp [joinSep, ih]
    · simp only [splitC, if_neg h]
      cases hr : splitC sep t with
      | nil => exact absurd hr (splitC_ne_nil sep t)
      | cons a b =>
        rw [hr] at ih
        cases b with
        | nil => simp_all [joinSep]
        | cons b0 b1 => simp_all [joinSep]

theorem splitC_part_no_sep (sep : Char) (cs : List Char) :
    ∀ part ∈ splitC sep cs, sep ∉ part := by
  induction cs with
  | nil => intro part hp; simp [splitC] at hp; simp [hp]
  | cons c t ih =>
    intro part hp
    by_cases h : c = sep
    · rw [splitC, if_pos h] at hp
      rcases List.mem_cons.mp hp with h2 | h2
      · simp [h2]
      · exact ih part h2
    · rw [splitC, if_neg h] at hp
      cases hr : splitC sep t with
      | nil => exact absurd hr (splitC_ne_nil sep t)
      | cons a b =>
        rw [hr] at hp
        rcases List.mem_cons.mp hp with h2 | h2
        · subst h2
          intro hmem
          rcases List.mem_cons.mp hmem with h3 | h3
          · exact h h3.symm
          · exact ih a (hr ▸ List.mem_cons_self a b) h3
        · exact ih part (hr ▸ List.mem_cons_of_mem a h2)

theorem splitC_of_not_mem (sep : Char) (cs : List Char) (h : sep ∉ cs) :
    splitC sep cs = [cs] := by
  induction cs with
  | nil => simp [splitC]
  | cons c t ih =>
    have hc : ¬ c = sep := fun he => h (by simp [he])
    have ht : sep ∉ t := fun hm => h (List.mem_cons_of_mem c hm)
    simp [splitC, hc, ih ht]

theorem splitC_append_sep (sep : Char) (a b : List Char) :
    splitC sep (a ++ sep :: b) = splitC sep a ++ splitC sep b := by
  induction a with
  | nil => simp [splitC]
  | cons c t ih =>
    by_cases h : c = sep
    · simp [splitC, h, ih]
    · simp only [List.cons_append, splitC, if_neg h, List.append_eq]
      rw [ih]
      cases hr : splitC sep t with
      | nil => exact absurd hr (splitC_ne_nil sep t)
      | cons x y => simp

theorem splitC_pair_iff (sep : Char) (cs a b : List Char) :
    splitC sep cs = [a, b] ↔ (cs = a ++ sep :: b ∧ sep ∉ a ∧ sep ∉ b) := by
  constructor
  · intro h
    refine ⟨?_, ?_, ?_⟩
    · have := joinSep_splitC sep cs
      rw [h] at this
      simpa [joinSep] using this.symm
    · exact splitC_part_no_sep sep cs a (by simp [h])
    · exact splitC_part_no_sep sep cs b (by simp [h])
  · rintro ⟨hcs, ha, hb⟩
    subst hcs
    rw [splitC_append_sep, splitC_of_not_mem sep a ha, splitC_of_not_mem sep b hb]
    rfl

/-- Occurrences of a given token among the space-separated tokens of a
character list. -/
def tokCount (x : List Char) (cs : List Char) : Nat :=
  (splitC ' ' cs).count x

theorem tokCount_append (x a b : List Char) :
    tokCount x (a ++ ' ' :: b) = tokCount x a + tokCount x b := by
  unfold tokCount
  rw [splitC_append_sep, List.count_append]

theorem tokCount_no_space (x cs : List Char) (h : ' ' ∉ cs) :
    tokCount x cs = if cs = x then 1 else 0 := by
  unfold tokCount
  rw [splitC_of_not_mem ' ' cs h]
  by_cases he : cs = x <;> simp [he, List.count_cons]

/-- Dictionary access on an association list keyed by strings, mirroring
Python dict subscription. -/
def alookup {α : Type} (k : String) : List (String × α) → Option α
  | [] => Option.none
  | (k2, v) :: t => if k2 = k then some v else alookup k t

theorem groupKeys_dictAppend (g : List (String × List Parameter)) (k : String) (p : Parameter) :
    groupKeys (dictAppend g k p) =
      (if k ∈ groupKeys g then groupKeys g else groupKeys g ++ [k]) := by
  induction g with
  | nil => simp [dictAppend, groupKeys]
  | cons hd t ih =>
    obtain ⟨k2, l⟩ := hd
    by_cases hk : k2 = k
    · subst hk
      simp [dictAppend, groupKeys]
    · simp only [dictAppend, if_neg hk, groupKeys, List.map_cons]
      rw [show (List.map Prod.fst (dictAppend t k p)) = groupKeys (dictAppend t k p) from rfl,
        ih]
      simp only [groupKeys]
      by_cases hm : k ∈ List.map Prod.fst t
      · rw [if_pos hm, if_pos (List.mem_cons_of_mem k2 hm)]
      · have hnotin : k ∉ k2 :: List.map Prod.fst t := by
          intro hc
          rcases List.mem_cons.mp hc with hc | hc
          · exact hk hc.symm
          · exact hm hc
        rw [if_neg hm, if_neg hnotin]
        simp

theorem alookup_dictAppend (g : List (String × List Parameter)) (k : String) (p : Parameter)
    (k2 : String) :
    alookup k2 (dictAppend g k p) =
      (if k2 = k then some (((alookup k g).getD []) ++ [p]) else alookup k2 g) := by
  induction g with
  | nil =>
    by_cases h : k2 = k
    · subst h
      simp [dictAppend, alookup]
    · have h2 : ¬k = k2 := fun he => h he.symm
      simp [dictAppend, alookup, h, h2]
  | cons hd t ih =>
    obtain ⟨k3, l⟩ := hd
    by_cases h3 : k3 = k
    · subst h3
      by_cases h : k2 = k3
      · subst h
        simp [dictAppend, alookup]
      · have h2 : ¬k3 = k2 := fun he => h he.symm
        simp [dictAppend, alookup, h, h2]
    · by_cases h : k3 = k2
      · subst h
        have h4 : ¬k3 = k := h3
        simp only [dictAppend, if_neg h3, alookup, if_pos rfl, if_neg h4]
        simp
      · simp only [dictAppend, if_neg h3, alookup, if_neg h]
        rw [ih]

theorem alookup_group_parameters (ps : List Parameter) :
    ∀ (g : List (String × List Parameter)) (k : String),
      alookup k (group_parameters g ps) =
        (if ps.filter (fun p => p.group == k) = [] then alookup k g
         else some (((alookup k g).getD []) ++ ps.filter (fun p => p.group == k))) := by
  induction ps with
  | nil => intro g k; simp [group_parameters]
  | cons p t ih =>
    intro g k
    have hstep : group_parameters g (p :: t) = group_parameters (dictAppend g p.group p) t := rfl
    rw [hstep, ih]
    by_cases hg : p.group = k
    · subst hg
      have hfilter : (p :: t).filter (fun q => q.group == p.group) =
          p :: t.filter (fun q => q.group == p.group) := by
        simp [List.filter_cons]
      rw [hfilter]
      simp only [alookup_dictAppend, if_pos rfl]
      by_cases he : t.filter (fun q => q.group == p.group) = []
      · simp [he]
      · simp only [he, if_neg he, if_neg (List.cons_ne_nil p (t.filter (fun q => q.group == p.group)))]
        simp
    · have h4 : ¬k = p.group := fun he => hg he.symm
      have hfilter : (p :: t).filter (fun q => q.group == k) =
          t.filter (fun q => q.group == k) := by
        simp [List.filter_cons, hg]
      rw [hfilter]
      simp only [alookup_dictAppend, if_neg h4]

theorem groupKeys_group_parameters (ps : List Parameter) :
    ∀ (g : List (String × List Parameter)),
      groupKeys (group_parameters g ps) =
        (ps.map (fun p => p.group)).foldl
          (fun acc x => if x ∈ acc then acc else acc ++ [x]) (groupKeys g) := by
  induction ps with
  | nil => intro g; simp [group_parameters]
  | cons p t ih =>
    intro g
    have hstep : group_parameters g (p :: t) = group_parameters (dictAppend g p.group p) t := rfl
    rw [hstep, ih, List.map_cons, List.foldl_cons, groupKeys_dictAppend]

theorem alookup_promptCoreFold_not_mem (pairs : List ((String × PValue) × PValue))
    (flag : String) (h : flag ∉ pairs.map (fun x => x.1.1)) :
    alookup flag (promptCoreFold pairs) = Option.none := by
  induction pairs with
  | nil => rfl
  | cons hd t ih =>
    obtain ⟨⟨f2, d2⟩, v2⟩ := hd
    have hne : ¬f2 = flag := by
      intro he
      exact h (by simp [he])
    have ht : flag ∉ t.map (fun x => x.1.1) := by
      intro hm
      exact h (List.mem_cons_of_mem _ hm)
    by_cases hv : v2 = noneToEmpty d2
    · simp only [promptCoreFold, if_pos hv]
      exact ih ht
    · simp only [promptCoreFold, if_neg hv, alookup, if_neg hne]
      exact ih ht

/-- Per-entry reading of the run-flag recording rule, in the words of the
spec: an entry appears exactly when the collaborator-returned value
differs verbatim from the (None-replaced) default, and the stored value is
the normalized one. -/
theorem alookup_promptCoreFold (pairs : List ((String × PValue) × PValue))
    (flag : String) (d v : PValue)
    (hnd : (pairs.map (fun x => x.1.1)).Nodup)
    (hmem : ((flag, d), v) ∈ pairs) :
    alookup flag (promptCoreFold pairs) =
      (if v = noneToEmpty d then Option.none else some (normalizeFlagVal v)) := by
  induction pairs with
  | nil => simp at hmem
  | cons hd t ih =>
    obtain ⟨⟨f2, d2⟩, v2⟩ := hd
    have hnd2 : (t.map (fun x => x.1.1)).Nodup := (List.nodup_cons.mp hnd).2
    have hhd : f2 ∉ t.map (fun x => x.1.1) := (List.nodup_cons.mp hnd).1
    rcases List.mem_cons.mp hmem with heq | hmem2
    · have hf : flag = f2 := congrArg (fun x => x.1.1) heq
      have hd2 : d = d2 := congrArg (fun x => x.1.2) heq
      have hv2 : v = v2 := congrArg Prod.snd heq
      subst hf
      subst hd2
      subst hv2
      by_cases hv : v = noneToEmpty d
      · simp only [promptCoreFold, if_pos hv]
        exact alookup_promptCoreFold_not_mem t flag hhd
      · simp only [promptCoreFold, if_neg hv, alookup, if_pos rfl]
        simp
    · have hflag : flag ∈ t.map (fun x => x.1.1) := by
        exact List.mem_map.mpr ⟨((flag, d), v), hmem2, rfl⟩
      have hne : ¬f2 = flag := fun he => hhd (he ▸ hflag)
      by_cases hv : v2 = noneToEmpty d2
      · simp only [promptCoreFold, if_pos hv]
        exact ih hnd2 hmem2
      · simp only [promptCoreFold, if_neg hv, alookup, if_neg hne]
        exact ih hnd2 hmem2

/-- Token contributed to the command text by one run-flag override, in the
words of the spec (section 4.4): a bare flag for boolean true, nothing for
boolean false, and a quoted escaped pair otherwise.  Used only to compare
against the fold translated from the source. -/
def flagTokenSpec (fv : String × PValue) : Option String :=
  match fv.2 with
  | PValue.bool true => some (" " ++ fv.1)
  | PValue.bool false => Option.none
  | v => some (" " ++ fv.1 ++ " \"" ++ escapeQuotes (pyStrOf v) ++ "\"")

/-- Warning contributed by one run-flag override: only a false boolean
produces one. -/
def flagWarnSpec (fv : String × PValue) : Option String :=
  match fv.2 with
  | PValue.bool false => some "TODO: Cant set false boolean flags currently."
  | _ => Option.none

/-- Token contributed to the command text by one inline parameter override,
with the double-dash style of the inline branch. -/
def paramTokenSpec (fv : String × PValue) : Option String :=
  match fv.2 with
  | PValue.bool true => some (" --" ++ fv.1)
  | PValue.bool false => Option.none
  | v => some (" --" ++ fv.1 ++ " \"" ++ escapeQuotes (pyStrOf v) ++ "\"")

theorem build_nxf_flags_fold (flags : List (String × PValue)) :
    ∀ (cmd : String) (ws : List String),
      flags.foldl buildFlagStep (cmd, ws) =
        (cmd ++ joinStr (flags.filterMap flagTokenSpec),
         ws ++ flags.filterMap flagWarnSpec) := by
  induction flags with
  | nil => intro cmd ws; simp [joinStr]
  | cons fv t ih =>
    intro cmd ws
    obtain ⟨f, v⟩ := fv
    cases v with
    | bool b =>
      cases b
      · simp only [List.foldl_cons, buildFlagStep, List.filterMap_cons, flagTokenSpec,
          flagWarnSpec, ih]
        simp
      · simp only [List.foldl_cons, buildFlagStep, List.filterMap_cons, flagTokenSpec,
          flagWarnSpec, ih]
        simp [joinStr, String.append_assoc]
    | int n =>
      simp only [List.foldl_cons, buildFlagStep, List.filterMap_cons, flagTokenSpec,
        flagWarnSpec, ih]
      simp [joinStr, String.append_assoc]
    | float lit =>
      simp only [List.foldl_cons, buildFlagStep, List.filterMap_cons, flagTokenSpec,
        flagWarnSpec, ih]
      simp [joinStr, String.append_assoc]
    | str s =>
      simp only [List.foldl_cons, buildFlagStep, List.filterMap_cons, flagTokenSpec,
        flagWarnSpec, ih]
      simp [joinStr, String.append_assoc]
    | none =>
      simp only [List.foldl_cons, buildFlagStep, List.filterMap_cons, flagTokenSpec,
        flagWarnSpec, ih]
      simp [joinStr, String.append_assoc]

theorem build_inline_params_fold (pu : List (String × PValue)) :
    ∀ (cmd : String) (ws : List String),
      pu.foldl buildInlineStep (cmd, ws) =
        (cmd ++ joinStr (pu.filterMap paramTokenSpec),
         ws ++ pu.filterMap (fun fv =>
           match fv.2 with
           | PValue.bool false => some "Cant set false boolean flags."
           | _ => Option.none)) := by
  induction pu with
  | nil => intro cmd ws; simp [joinStr]
  | cons fv t ih =>
    intro cmd ws
    obtain ⟨f, v⟩ := fv
    cases v with
    | bool b =>
      cases b
      · simp only [List.foldl_cons, buildInlineStep, List.filterMap_cons, paramTokenSpec, ih]
        simp
      · simp only [List.foldl_cons, buildInlineStep, List.filterMap_cons, paramTokenSpec, ih]
        simp [joinStr, String.append_assoc]
    | int n =>
      simp only [List.foldl_cons, buildInlineStep, List.filterMap_cons, paramTokenSpec, ih]
      simp [joinStr, String.append_assoc]
    | float lit =>
      simp only [List.foldl_cons, buildInlineStep, List.filterMap_cons, paramTokenSpec, ih]
      simp [joinStr, String.append_assoc]
    | str s =>
      simp only [List.foldl_cons, buildInlineStep, List.filterMap_cons, paramTokenSpec, ih]
      simp [joinStr, String.append_assoc]
    | none =>
      simp only [List.foldl_cons, buildInlineStep, List.filterMap_cons, paramTokenSpec, ih]
      simp [joinStr, String.append_assoc]

theorem coerce_shape (t : String) (v0 : PValue) :
    (t = "integer" → ∃ n, coerceValue t v0 = PValue.int n)
    ∧ (t = "decimal" → ∃ lit, coerceValue t v0 = PValue.float lit)
    ∧ (t ≠ "integer" → t ≠ "decimal" → ∃ s, coerceValue t v0 = PValue.str s) := by
  refine ⟨?_, ?_, ?_⟩
  · intro h
    subst h
    exact ⟨pyIntOf v0, rfl⟩
  · intro h
    subst h
    exact ⟨pyFloatTextOf v0, by simp [coerceValue]⟩
  · intro h1 h2
    exact ⟨pyStrOf v0, by simp [coerceValue, h1, h2]⟩

theorem tokCount_nil (x : List Char) (hx : x ≠ []) : tokCount x [] = 0 := by
  unfold tokCount
  rw [List.count_eq_zero]
  simpa [splitC] using hx

theorem exists_tail_of_head (l : List Char) (h : l.head? = some ' ') :
    ∃ u, l = ' ' :: u := by
  cases l with
  | nil => simp at h
  | cons a t =>
    simp at h
    exact ⟨t, by rw [h]⟩

theorem tokCount_chunk_append (x : List Char) (s : String) (l : List String)
    (hx : x ≠ [])
    (hl : ∀ c ∈ l, ∃ u, c.data = ' ' :: u) :
    tokCount x (s.data ++ (joinStr l).data) =
      tokCount x s.data + tokCount x (joinStr l).data := by
  induction l with
  | nil =>
    simp only [joinStr]
    change tokCount x (s.data ++ []) = tokCount x s.data + tokCount x []
    rw [List.append_nil, tokCount_nil x hx]
    omega
  | cons c t _ =>
    obtain ⟨u, hu⟩ := hl c (List.mem_cons_self c t)
    have hjoin : (joinStr (c :: t)).data = ' ' :: (u ++ (joinStr t).data) := by
      show (c ++ joinStr t).data = _
      rw [String.data_append, hu]
      rfl
    rw [hjoin, tokCount_append]
    have h2 : tokCount x (' ' :: (u ++ (joinStr t).data)) =
        tokCount x [] + tokCount x (u ++ (joinStr t).data) := by
      have hsh : (' ' :: (u ++ (joinStr t).data)) = [] ++ ' ' :: (u ++ (joinStr t).data) := rfl
      rw [hsh, tokCount_append]
    rw [h2, tokCount_nil x hx]
    omega

theorem paramTokenSpec_starts_space (fv : String × PValue) (c : String)
    (h : paramTokenSpec fv = some c) : ∃ u, c.data = ' ' :: u := by
  obtain ⟨f, v⟩ := fv
  cases v with
  | bool b =>
    cases b
    · simp [paramTokenSpec] at h
    · have hc : " --" ++ f = c := Option.some_inj.mp h
      subst hc
      exact exists_tail_of_head _ (by simp only [String.data_append]; rfl)
  | int n =>
    have hc := Option.some_inj.mp h
    subst hc
    exact exists_tail_of_head _ (by simp only [String.data_append]; rfl)
  | float lit =>
    have hc := Option.some_inj.mp h
    subst hc
    exact exists_tail_of_head _ (by simp only [String.data_append]; rfl)
  | str s2 =>
    have hc := Option.some_inj.mp h
    subst hc
    exact exists_tail_of_head _ (by simp only [String.data_append]; rfl)
  | none =>
    have hc := Option.some_inj.mp h
    subst hc
    exact exists_tail_of_head _ (by simp only [String.data_append]; rfl)

/- ----------------------------------------------------------------- -/
/- Concrete fixtures used by scenario theorems.                       -/
/- ----------------------------------------------------------------- -/

/-- Integer parameter of scenario A: named reads, default 1. -/
def readsParam : Parameter :=
  { name := "reads", label := Option.none, usage := Option.none, type := "integer",
    choices := Option.none, default_value := PValue.int 1, value := PValue.int 1,
    pattern := ".*", render := "textfield", arity := Option.none,
    group := "Pipeline parameters" }

/-- Boolean parameter of scenario B: named save_all, default true. -/
def saveAllParam : Parameter :=
  { name := "save_all", label := Option.none, usage := Option.none, type := "boolean",
    choices := Option.none, default_value := PValue.bool true, value := PValue.bool true,
    pattern := ".*", render := "textfield", arity := Option.none,
    group := "Pipeline parameters" }

/-- Collaborator answers that leave every run flag at its default. -/
def defaultFlagAnswers : List PValue :=
  [PValue.str "", PValue.str "", PValue.str "standard", PValue.str "./work",
   PValue.bool false]

/- ----------------------------------------------------------------- -/
/- Claim theorems.                                                    -/
/- ----------------------------------------------------------------- -/

/-- C4: for every raw string value of the fallback configuration map, the
type inference of collect_pipeline_param_defaults follows exactly the
spec precedence: digits-only gives integer with the parsed numeric value,
otherwise float-parseable gives decimal, otherwise string with the raw
text, and regardless of those outcomes the exact case-sensitive literals
true and false give boolean. -/
theorem C4_type_inference : ∀ value : String, inferParam value = specInferParam value := by
  intro value
  by_cases ht : value = "true"
  · subst ht
    decide
  · by_cases hf : value = "false"
    · subst hf
      decide
    · simp [inferParam, specInferParam, ht, hf]

/-- C10: a workflow name that does not contain nf-core, has no slash and
does not name an existing path is prefixed with nf-core/ before the base
command is assembled; a name failing any of the three conditions is used
unchanged. -/
theorem C10_name_normalization : ∀ (w : String) (pe : Bool),
    ((pyIn "nf-core" w = false ∧ w.data.count '/' = 0 ∧ pe = false) →
      normalize_workflow_name w pe = "nf-core/" ++ w
      ∧ nextflow_cmd_init w pe = "nextflow run " ++ ("nf-core/" ++ w))
    ∧ ((pyIn "nf-core" w = true ∨ w.data.count '/' ≠ 0 ∨ pe = true) →
      normalize_workflow_name w pe = w
      ∧ nextflow_cmd_init w pe = "nextflow run " ++ w) := by
  intro w pe
  constructor
  · rintro ⟨h1, h2, h3⟩
    subst h3
    constructor
    · simp [normalize_workflow_name, h1, h2]
    · simp [nextflow_cmd_init, normalize_workflow_name, h1, h2]
  · intro h
    have hcond : ¬(!pyIn "nf-core" w && w.data.count '/' == 0 && !pe) = true := by
      rcases h with h | h | h <;> simp [h]
    constructor
    · simp [normalize_workflow_name, hcond]
    · simp [nextflow_cmd_init, normalize_workflow_name, hcond]

/-- Witness for C10 at concrete inputs: a bare short name is prefixed, and
a name already containing a slash is left unchanged. -/
theorem C10_name_normalization_witness :
    normalize_workflow_name "rnaseq" false = "nf-core/rnaseq"
    ∧ normalize_workflow_name "foo/bar" false = "foo/bar" := by
  constructor
  · exact ((C10_name_normalization "rnaseq" false).1 (by refine ⟨by decide, by decide, rfl⟩)).1
  · exact ((C10_name_normalization "foo/bar" false).2 (Or.inr (Or.inl (by decide)))).1

/-- C5 (amended): grouping from the empty dictionary is a single linear
pass whose group keys appear in first-seen order and whose per-group lists
are exactly the catalog filtered by group label, in catalog order; the
operation is deterministic, but it accumulates into the dictionary carried
by the object, so running it again on the same catalog appends every
parameter a second time and doubles each per-group list instead of
reproducing the first result. -/
theorem C5_amended_grouping : ∀ (ps : List Parameter) (k : String),
    groupKeys (group_parameters [] ps) = dedupFirstSeen (ps.map (fun p => p.group))
    ∧ alookup k (group_parameters [] ps) =
        (if ps.filter (fun p => p.group == k) = [] then Option.none
         else some (ps.filter (fun p => p.group == k)))
    ∧ alookup k (group_parameters (group_parameters [] ps) ps) =
        (if ps.filter (fun p => p.group == k) = [] then Option.none
         else some (ps.filter (fun p => p.group == k) ++ ps.filter (fun p => p.group == k))) := by
  intro ps k
  refine ⟨?_, ?_, ?_⟩
  · rw [groupKeys_group_parameters]
    rfl
  · rw [alookup_group_parameters]
    by_cases he : ps.filter (fun p => p.group == k) = [] <;> simp [he, alookup]
  · rw [alookup_group_parameters, alookup_group_parameters]
    by_cases he : ps.filter (fun p => p.group == k) = [] <;> simp [he, alookup]

/-- C5 counterexample: for a one-parameter catalog, running the grouping
operation a second time on the same catalog does not reproduce the first
dictionary (it doubles the group list), refuting idempotence of the
operation as implemented. -/
theorem C5_counterexample :
    group_parameters (group_parameters [] [readsParam]) [readsParam]
      = [("Pipeline parameters", [readsParam, readsParam])]
    ∧ group_parameters (group_parameters [] [readsParam]) [readsParam]
      ≠ group_parameters [] [readsParam] := by
  constructor
  · decide
  · decide

/-- C6: the run-flag section of build_command appends, for each recorded
override in order, a bare flag token when the value is boolean true,
nothing but a logged warning when the value is boolean false, and the flag
followed by the double-quoted value with embedded double quotes escaped
otherwise. -/
theorem C6_flag_tokens : ∀ (cmd : String) (flags : List (String × PValue)),
    build_nxf_flags cmd flags
      = (cmd ++ joinStr (flags.filterMap flagTokenSpec),
         flags.filterMap flagWarnSpec) := by
  intro cmd flags
  have h := build_nxf_flags_fold flags cmd []
  simpa [build_nxf_flags] using h

/-- C3 (amended): every value the prompting loop assigns to a parameter,
including those later rejected by validation, has the shape dictated by
the coercion table of the source: integer parameters hold integers,
decimal parameters hold floats, and parameters of every other declared
type - including boolean - hold text. -/
theorem C3_value_types : ∀ (p : Parameter) (inputs : List String) (v : PValue),
    v ∈ assignedValues p inputs →
      (p.type = "integer" → ∃ n, v = PValue.int n)
      ∧ (p.type = "decimal" → ∃ lit, v = PValue.float lit)
      ∧ (p.type ≠ "integer" → p.type ≠ "decimal" → ∃ s, v = PValue.str s) := by
  intro p inputs
  induction inputs with
  | nil =>
    intro v h
    simp [assignedValues] at h
  | cons line rest ih =>
    intro v h
    rw [assignedValues] at h
    cases hc : clickConvert p line with
    | none =>
      rw [hc] at h
      exact ih v h
    | some v0 =>
      rw [hc] at h
      simp only at h
      by_cases hv : validateParam p (coerceValue p.type v0)
      · simp only [if_pos hv] at h
        have hveq : v = coerceValue p.type v0 := by simpa using h
        subst hveq
        exact coerce_shape p.type v0
      · simp only [if_neg hv] at h
        rcases List.mem_cons.mp h with heq | hmem
        · subst heq
          exact coerce_shape p.type v0
        · exact ih v hmem

/-- Witness for C3 at a concrete input: the accepted value 4 of the
integer parameter reads is an integer. -/
theorem C3_value_types_witness :
    PValue.int 4 ∈ assignedValues readsParam ["4"]
    ∧ ∃ n, PValue.int 4 = PValue.int n := by
  refine ⟨by decide, ?_⟩
  exact (C3_value_types readsParam ["4"] (PValue.int 4) (by decide)).1 rfl

/-- C3 counterexample: answering yes to the boolean parameter save_all
stores the text True, not a boolean, because the coercion step of
prompt_param_flags casts every non-integer non-decimal type with str; the
runtime type of the stored value therefore does not match the declared
boolean type. -/
theorem C3_counterexample :
    assignedValues saveAllParam ["y"] = [PValue.str "True"]
    ∧ ¬ ∃ b, PValue.str "True" = PValue.bool b := by
  constructor
  · decide
  · rintro ⟨b, hb⟩
    exact PValue.noConfusion hb

/-- C2 (amended): a run flag is recorded in the Override Set exactly when
the value returned by the prompt collaborator differs verbatim from its
(None-replaced) default - the quote-stripping and boolean normalization
are applied only afterwards to the stored value, which may therefore equal
the default - and the parameter Override Set params_user is never written
by the interactive session: it is empty whenever the session completes. -/
theorem C2_override_set :
    (∀ (pairs : List ((String × PValue) × PValue)) (flag : String) (d v : PValue),
      (pairs.map (fun x => x.1.1)).Nodup →
      ((flag, d), v) ∈ pairs →
      alookup flag (promptCoreFold pairs) =
        (if v = noneToEmpty d then Option.none else some (normalizeFlagVal v)))
    ∧ (∀ (nxfWork : Option String) (params : List Parameter) (flagVals : List PValue)
        (inputs : List String) (st : LaunchSession),
        runInteractiveSession nxfWork params flagVals inputs = some st →
        st.params_user = []) := by
  constructor
  · intro pairs flag d v hnd hmem
    exact alookup_promptCoreFold pairs flag d v hnd hmem
  · intro nxfWork params flagVals inputs st h
    unfold runInteractiveSession at h
    cases hp : prompt_param_flags (group_parameters [] params) inputs with
    | none =>
      rw [hp] at h
      simp at h
    | some gr =>
      rw [hp] at h
      simp only [Option.some_inj] at h
      rw [← h]

/-- Witness for C2 at concrete inputs: a resume answer of true, differing
from the false default, is recorded; and a completed session on an empty
catalog has an empty params_user. -/
theorem C2_override_set_witness :
    alookup "-resume" (promptCoreFold [(("-resume", PValue.bool false), PValue.bool true)])
      = (if PValue.bool true = noneToEmpty (PValue.bool false) then Option.none
         else some (normalizeFlagVal (PValue.bool true)))
    ∧ (LaunchSession.mk (prompt_core_nxf_flags (nxf_flag_defaults Option.none) []) [] [] []).params_user
      = [] := by
  constructor
  · exact C2_override_set.1 [(("-resume", PValue.bool false), PValue.bool true)]
      "-resume" (PValue.bool false) (PValue.bool true) (by decide) (by decide)
  · exact C2_override_set.2 Option.none [] [] []
      (LaunchSession.mk (prompt_core_nxf_flags (nxf_flag_defaults Option.none) []) [] [] [])
      rfl

/-- C2 counterexample: at the profile prompt the operator types the
default surrounded by double quotes.  The raw value differs from the
default, so the code records the flag, and only then strips the quotes:
the Override Set ends up holding the entry profile = standard whose
finally-accepted value equals the default standard, so the claimed
equivalence (entry present exactly when the finally-accepted value,
compared after quote trimming and boolean normalization, differs from the
default) is false at this input. -/
theorem C2_counterexample :
    prompt_core_nxf_flags (nxf_flag_defaults Option.none)
        [PValue.str "", PValue.str "", PValue.str "\"standard\"", PValue.str "./work",
         PValue.bool false]
      = [("-profile", PValue.str "standard")]
    ∧ alookup "-profile" (nxf_flag_defaults Option.none) = some (PValue.str "standard") := by
  constructor
  · decide
  · decide

/-- C1 (amended): in scenario A the integer parameter reads with default 1
rejects the non-numeric entry abc and re-issues the prompt - no run of
abc-only answers, however long, can complete the parameter, so the retry
is unbounded with no escape path - then accepts 4; the accepted value is
stored on the parameter as the integer 4 and the params file records
reads = 4, while the parameter Override Set params_user stays empty (the
session never writes it; the accepted value survives on the catalog entry
instead). -/
theorem C1_scenarioA :
    (∀ n : Nat, promptParamLoop readsParam (List.replicate n "abc") = Option.none)
    ∧ promptParamLoop readsParam ["abc", "4"] = some (PValue.int 4, [])
    ∧ (runInteractiveSession Option.none [readsParam] defaultFlagAnswers
        ["y", "abc", "4"]).map
          (fun st => (in_nextflow_json st.parameters, st.params_user))
      = some ([("reads", PValue.int 4)], []) := by
  refine ⟨?_, by decide, by decide⟩
  intro n
  induction n with
  | zero => rfl
  | succ m ih =>
    have hc : clickConvert readsParam "abc" = Option.none := by decide
    rw [List.replicate_succ, promptParamLoop, hc]
    exact ih

/-- C1 counterexample: after the scenario A session accepts the value 4
for the parameter reads, the parameter Override Set params_user is still
empty - no statement of launch.py ever writes params_user - so the claim
that the accepted value is recorded in the parameter Override Set is
false on this input. -/
theorem C1_counterexample :
    (runInteractiveSession Option.none [readsParam] defaultFlagAnswers
        ["y", "abc", "4"]).map (fun st => alookup "reads" st.params_user)
      = some Option.none := by
  decide

/-- C8: when no schema is available, only configuration keys of the exact
shape params dot name (one nesting level under the reserved namespace,
with no further dot in the name) synthesize catalog parameters, and every
synthesized parameter carries label None, usage None, choices None,
pattern match-all, render hint textfield, arity None and the synthetic
group Pipeline parameters. -/
theorem C8_fallback_catalog : ∀ (config : List (String × String)),
    (∀ p ∈ collect_pipeline_param_defaults config,
        p.label = Option.none ∧ p.usage = Option.none ∧ p.choices = Option.none ∧
        p.pattern = ".*" ∧ p.render = "textfield" ∧ p.arity = Option.none ∧
        p.group = "Pipeline parameters")
    ∧ (∀ k name : String, paramKeyName k = some name ↔
        (k.data = "params".data ++ '.' :: name.data ∧ '.' ∉ name.data))
    ∧ (collect_pipeline_param_defaults config).map (fun p => p.name)
        = config.filterMap (fun kv => paramKeyName kv.1) := by
  intro config
  refine ⟨?_, ?_, ?_⟩
  · intro p hp
    simp only [collect_pipeline_param_defaults, List.mem_filterMap] at hp
    obtain ⟨⟨k, v⟩, _, heq⟩ := hp
    cases hk : paramKeyName k with
    | none => rw [hk] at heq; simp at heq
    | some name =>
      rw [hk] at heq
      simp only [Option.some_inj] at heq
      rw [← heq]
      exact ⟨rfl, rfl, rfl, rfl, rfl, rfl, rfl⟩
  · intro k name
    constructor
    · intro h
      unfold paramKeyName at h
      cases hs : splitC '.' k.data with
      | nil => exact absurd hs (splitC_ne_nil '.' k.data)
      | cons a rest =>
        rw [hs] at h
        cases rest with
        | nil => simp at h
        | cons b rest2 =>
          cases rest2 with
          | nil =>
            change (if a = "params".data then some (String.mk b) else Option.none)
              = some name at h
            by_cases ha : a = "params".data
            · rw [if_pos ha] at h
              have hb : name = String.mk b := (Option.some_inj.mp h).symm
              have hpair := (splitC_pair_iff '.' k.data a b).mp hs
              subst ha
              refine ⟨?_, ?_⟩
              · rw [hpair.1, hb]
              · rw [hb]
                exact hpair.2.2
            · rw [if_neg ha] at h
              exact absurd h (by simp)
          | cons c rest3 => simp at h
    · rintro ⟨hdata, hdot⟩
      have hsplit : splitC '.' k.data = ["params".data, name.data] := by
        apply (splitC_pair_iff '.' k.data "params".data name.data).mpr
        exact ⟨hdata, by decide, hdot⟩
      unfold paramKeyName
      rw [hsplit]
      change (if "params".data = "params".data then some (String.mk name.data) else Option.none)
        = some name
      rw [if_pos rfl]
  · simp only [collect_pipeline_param_defaults, List.map_filterMap]
    congr 1
    funext kv
    cases paramKeyName kv.1 <;> simp [mkSynthParam]

/-- Witness for C8 at a concrete configuration: the key params.reads with
value 1 synthesizes a parameter in the synthetic group. -/
theorem C8_fallback_catalog_witness :
    (mkSynthParam "reads" "1").group = "Pipeline parameters" :=
  ((C8_fallback_catalog [("params.reads", "1")]).1 (mkSynthParam "reads" "1")
    (by decide)).2.2.2.2.2.2

/-- C9: the launch orchestrator displays the assembled command text, asks
a confirmation whose default answer is no, hands the command to the
process collaborator exactly on a yes answer, and leaves the files on
disk untouched in every case. -/
theorem C9_launch_confirmation : ∀ (cmd : String) (inputs : List String)
    (disk : List (String × FileContent)),
    ("  " ++ cmd) ∈ (launch_workflow cmd inputs disk).1
    ∧ (launch_workflow cmd inputs disk).2.2 = disk
    ∧ (∀ rest, confirmRead false inputs = some (true, rest) →
        (launch_workflow cmd inputs disk).2.1 = [cmd])
    ∧ (∀ rest, confirmRead false inputs = some (false, rest) →
        (launch_workflow cmd inputs disk).2.1 = [])
    ∧ (∀ tail : List String, confirmRead false ("" :: tail) = some (false, tail)) := by
  intro cmd inputs disk
  refine ⟨?_, ?_, ?_, ?_, ?_⟩
  · cases h : confirmRead false inputs with
    | none => simp [launch_workflow, h]
    | some br =>
      obtain ⟨b, r⟩ := br
      cases b <;> simp [launch_workflow, h]
  · cases h : confirmRead false inputs with
    | none => simp [launch_workflow, h]
    | some br =>
      obtain ⟨b, r⟩ := br
      cases b <;> simp [launch_workflow, h]
  · intro rest h
    simp [launch_workflow, h]
  · intro rest h
    simp [launch_workflow, h]
  · intro tail
    simp [confirmRead]

/-- Witness for C9 at concrete inputs: a yes answer executes the displayed
command. -/
theorem C9_launch_confirmation_witness :
    (launch_workflow "nextflow run demo" ["y"] []).2.1 = ["nextflow run demo"] :=
  (C9_launch_confirmation "nextflow run demo" ["y"] []).2.2.1 [] (by decide)

theorem tokCount_file_cmd (base cwd : String)
    (hsp : ' ' ∉ cwd.data)
    (h0 : tokCount "--params-file".data base.data = 0) :
    tokCount "--params-file".data
      (base ++ " " ++ "--params-file" ++ " \"" ++ (cwd ++ "/nfx-params.json") ++ "\"").data
      = 1 := by
  have hshape :
      (base ++ " " ++ "--params-file" ++ " \"" ++ (cwd ++ "/nfx-params.json") ++ "\"").data
        = base.data ++ ' ' ::
            ("--params-file".data ++ ' ' ::
              ('"' :: (cwd.data ++ ("/nfx-params.json".data ++ ['"'])))) := by
    simp only [String.data_append]
    simp [List.append_assoc]
  rw [hshape, tokCount_append, tokCount_append, h0]
  have h1 : tokCount "--params-file".data "--params-file".data = 1 := by
    rw [tokCount_no_space _ _ (by decide), if_pos rfl]
  have hsp2 : ' ' ∉ '"' :: (cwd.data ++ ("/nfx-params.json".data ++ ['"'])) := by
    intro hm
    rcases List.mem_cons.mp hm with hm | hm
    · exact absurd hm (by decide)
    · rcases List.mem_append.mp hm with hm | hm
      · exact hsp hm
      · rcases List.mem_append.mp hm with hm | hm
        · exact absurd hm (by decide)
        · exact absurd hm (by decide)
  have h2 : tokCount "--params-file".data
      ('"' :: (cwd.data ++ ("/nfx-params.json".data ++ ['"']))) = 0 := by
    rw [tokCount_no_space _ _ hsp2, if_neg ?_]
    intro he
    have hh := congrArg List.head? he
    rw [List.head?_cons] at hh
    have hd : ("--params-file".data).head? = some '-' := by decide
    rw [hd] at hh
    exact absurd (Option.some_inj.mp hh) (by decide)
  omega

/-- C7 (amended): in file mode the builder appends exactly one
params-file reference token pointing at the nfx-params.json path in the
working directory, writes that file with the name-to-current-value
mapping of every catalog parameter, and writes the second full-metadata
audit file; in inline mode with the same Override Set the command gains
one flag chunk per overridden entry whose value is not boolean false
(false-valued booleans are omitted, with an error logged, per the flag
rules), contains no file-reference token, and no files are written. -/
theorem C7_serialization_modes : ∀ (cmd0 : String) (flags pu : List (String × PValue))
    (params : List Parameter) (cwd : String),
    (build_command cmd0 flags true pu params cwd).1
        = (build_nxf_flags cmd0 flags).1 ++ " " ++ "--params-file" ++ " \""
            ++ (cwd ++ "/nfx-params.json") ++ "\""
    ∧ (build_command cmd0 flags true pu params cwd).2.1
        = [(cwd ++ "/nfx-params.json",
            FileContent.nxfParams (params.map (fun p => (p.name, p.value)))),
           (cwd ++ "/full-params.json", FileContent.fullJson (in_full_json params))]
    ∧ (' ' ∉ cwd.data →
        tokCount "--params-file".data (build_nxf_flags cmd0 flags).1.data = 0 →
        tokCount "--params-file".data (build_command cmd0 flags true pu params cwd).1.data = 1)
    ∧ (build_command cmd0 flags false pu params cwd).1
        = (build_nxf_flags cmd0 flags).1 ++ joinStr (pu.filterMap paramTokenSpec)
    ∧ (build_command cmd0 flags false pu params cwd).2.1 = []
    ∧ (tokCount "--params-file".data (build_nxf_flags cmd0 flags).1.data = 0 →
        tokCount "--params-file".data (joinStr (pu.filterMap paramTokenSpec)).data = 0 →
        tokCount "--params-file".data (build_command cmd0 flags false pu params cwd).1.data = 0) := by
  intro cmd0 flags pu params cwd
  have hfile1 : (build_command cmd0 flags true pu params cwd).1
      = (build_nxf_flags cmd0 flags).1 ++ " " ++ "--params-file" ++ " \""
          ++ (cwd ++ "/nfx-params.json") ++ "\"" := by
    simp [build_command]
  have hinline1 : (build_command cmd0 flags false pu params cwd).1
      = (build_nxf_flags cmd0 flags).1 ++ joinStr (pu.filterMap paramTokenSpec) := by
    have hbi := build_inline_params_fold pu (build_nxf_flags cmd0 flags).1 []
    simp only [build_command, Bool.false_eq_true, if_neg, build_inline_params] at *
    simp [hbi]
  refine ⟨hfile1, ?_, ?_, hinline1, ?_, ?_⟩
  · simp [build_command, in_nextflow_json]
  · intro hsp h0
    rw [hfile1]
    exact tokCount_file_cmd (build_nxf_flags cmd0 flags).1 cwd hsp h0
  · simp [build_command]
  · intro h0 h1
    rw [hinline1, String.data_append]
    have hchunks : ∀ c ∈ pu.filterMap paramTokenSpec, ∃ u, c.data = ' ' :: u := by
      intro c hc
      obtain ⟨fv, _, hfv⟩ := List.mem_filterMap.mp hc
      exact paramTokenSpec_starts_space fv c hfv
    rw [tokCount_chunk_append _ _ _ (by decide) hchunks, h0, h1]

/-- Witness for C7 at concrete inputs: the file-mode command holds exactly
one params-file token, and the inline-mode command with one string
override holds none. -/
theorem C7_serialization_modes_witness :
    tokCount "--params-file".data
      (build_command "nextflow run x" [] true [] [] "/work").1.data = 1
    ∧ tokCount "--params-file".data
      (build_command "nextflow run x" [] false [("genome", PValue.str "GRCh38")] [] "/work").1.data
        = 0 := by
  constructor
  · exact (C7_serialization_modes "nextflow run x" [] [] [] "/work").2.2.1
      (by decide) (by decide)
  · exact (C7_serialization_modes "nextflow run x" []
      [("genome", PValue.str "GRCh38")] [] "/work").2.2.2.2.2 (by decide) (by decide)

/-- C7 counterexample: in inline mode an Override Set holding the single
entry saveTrimmed = false produces a command with no token for that entry
(only an error is logged), so the claim that the inline command text
contains one token per overridden parameter entry is false at this
input. -/
theorem C7_counterexample :
    (build_command "nextflow run x" [] false [("saveTrimmed", PValue.bool false)] [] "/work").1
      = "nextflow run x"
    ∧ (build_command "nextflow run x" [] false [("saveTrimmed", PValue.bool false)] [] "/work").2.2
      = ["Cant set false boolean flags."] := by
  constructor
  · decide
  · decide
